import Mathlib

/-!
Shallow embedding of the health-tracker application's core logic
(HealthTrackerApp.jsx, index.jsx, and the unnamed source file part_000),
together with theorems settling the specification's claims about the
retry/backoff wrappers, the generation-request builders, the snapshot
projections, and the weight-recording validation.

Naming convention: definitions from HealthTrackerApp.jsx live in
namespace `HealthApp`, definitions from the unnamed file part_000 in
namespace `PartZero`, and definitions from index.jsx in namespace `IndexApp`.
-/

/-! ## JavaScript number values

The app manipulates `parseFloat` results, which are IEEE-754 doubles.
The claims only depend on the special values (NaN, plus/minus Infinity)
versus ordinary finite values, so a JS number is modelled as either a
special value or an exact finite rational. -/

inductive JSNum where
  | nan : JSNum
  | inf : JSNum
  | negInf : JSNum
  | fin (q : ℚ) : JSNum
deriving DecidableEq, Repr

namespace JSNum

/-- JS `isNaN(v)`. -/
def isNaN : JSNum → Bool
  | .nan => true
  | _ => false

/-- JS `v <= 0` (comparisons with NaN are false). -/
def leZero : JSNum → Bool
  | .nan => false
  | .inf => false
  | .negInf => true
  | .fin q => decide (q ≤ 0)

/-- JS subtraction on the modelled values. -/
def sub : JSNum → JSNum → JSNum
  | .nan, _ => .nan
  | _, .nan => .nan
  | .inf, .inf => .nan
  | .inf, .negInf => .inf
  | .inf, .fin _ => .inf
  | .negInf, .negInf => .nan
  | .negInf, .inf => .negInf
  | .negInf, .fin _ => .negInf
  | .fin _, .inf => .negInf
  | .fin _, .negInf => .inf
  | .fin a, .fin b => .fin (a - b)

/-- The specification's notion of a positive finite number
(spec.md section 3: "weight must be a positive finite number"). -/
def isPositiveFinite : JSNum → Bool
  | .fin q => decide (0 < q)
  | _ => false

/-- Positivity in the sense actually enforced by the code's
`isNaN(v) || v <= 0` check: everything that passes the check. -/
def jsPositive : JSNum → Bool
  | .nan => false
  | .inf => true
  | .negInf => false
  | .fin q => decide (0 < q)

theorem jsPositive_iff_check (v : JSNum) :
    jsPositive v = true ↔ (v.isNaN || v.leZero) = false := by
  cases v with
  | nan => simp [jsPositive, isNaN, leZero]
  | inf => simp [jsPositive, isNaN, leZero]
  | negInf => simp [jsPositive, isNaN, leZero]
  | fin q =>
    simp only [jsPositive, isNaN, leZero, Bool.false_or,
      decide_eq_true_eq, decide_eq_false_iff_not, not_le]

end JSNum

/-! ## HTTP model

An attempt of `fetch` either yields a response (with a status and a body)
or rejects with a low-level transport error.  `errMsg` models the
`error.message` field of a JSON error body, used by fetchWithRetry. -/

structure HttpResponse where
  status : Nat
  body : String
  errMsg : Option String
deriving DecidableEq, Repr

/-- JS `response.ok`: status in the 2xx range. -/
def HttpResponse.isOk (r : HttpResponse) : Bool :=
  decide (200 ≤ r.status) && decide (r.status < 300)

inductive FetchOutcome where
  | response (r : HttpResponse)
  | transportError (msg : String)
deriving DecidableEq, Repr

/-- Result of one whole retry-wrapper invocation: how many network calls
were made, which delays were slept (in order), and the final outcome
(`undef` models a JS function body falling off the end of the loop,
which can only happen with a zero attempt budget). -/
inductive RunOutcome where
  | ok (body : String)
  | err (msg : String)
  | undef
deriving DecidableEq, Repr

structure RunResult where
  calls : Nat
  sleeps : List Nat
  outcome : RunOutcome
deriving DecidableEq, Repr

/-- Total delay slept during the invocation. -/
def RunResult.totalSleep (r : RunResult) : Nat := r.sleeps.sum

namespace HealthApp

/-- The error thrown inside the `try` of one attempt of `fetchWithRetry`
(src/HealthTrackerApp.jsx lines 56-66), or the successful body.
Transient statuses (429 / 5xx) throw `Server or Rate Limit Error`;
other non-ok statuses throw the parsed error body's message. -/
def attemptResult : FetchOutcome → Except String String
  | .transportError m => .error m
  | .response r =>
    if r.isOk then .ok r.body
    else if r.status == 429 || decide (500 ≤ r.status) then
      .error ("Server or Rate Limit Error: " ++ toString r.status)
    else
      .error (r.errMsg.getD ("HTTP Error: " ++ toString r.status))

/-- Loop body of `fetchWithRetry` (src/HealthTrackerApp.jsx lines 53-78).
`trace i` is the outcome of the i-th `fetch`, `jitter i` models
`Math.random() * 1000` in the i-th backoff.  `fuel` is the number of
remaining loop iterations (`maxRetries - i`).  Crucially, the catch block
catches every error thrown in the try, including the one thrown for
non-transient statuses such as 400/403, so every failure is retried. -/
def fetchWithRetryAux (trace : Nat → FetchOutcome) (jitter : Nat → Nat)
    (maxRetries : Nat) : Nat → RunResult
  | 0 => ⟨0, [], .undef⟩
  | fuel + 1 =>
    let i := maxRetries - (fuel + 1)
    match attemptResult (trace i) with
    | .ok body => ⟨1, [], .ok body⟩
    | .error msg =>
      if fuel = 0 then ⟨1, [], .err msg⟩
      else
        let backoffTime := 2 ^ i * 1000 + jitter i
        let rest := fetchWithRetryAux trace jitter maxRetries fuel
        ⟨rest.calls + 1, backoffTime :: rest.sleeps, rest.outcome⟩

/-- `fetchWithRetry(url, options, maxRetries)` from src/HealthTrackerApp.jsx. -/
def fetchWithRetry (trace : Nat → FetchOutcome) (jitter : Nat → Nat)
    (maxRetries : Nat) : RunResult :=
  fetchWithRetryAux trace jitter maxRetries maxRetries

end HealthApp

namespace PartZero

/-- The error thrown inside one attempt of `fetchWithBackoff`
(src/unnamed/part_000 lines 37-43): every non-ok status throws the same
shaped message, with no transient/permanent distinction. -/
def attemptResult : FetchOutcome → Except String String
  | .transportError m => .error m
  | .response r =>
    if r.isOk then .ok r.body
    else .error ("HTTP error! status: " ++ toString r.status ++
      ". Details: " ++ r.body)

/-- Loop body of `fetchWithBackoff` (src/unnamed/part_000 lines 33-55):
three attempts, each failure caught and remembered as `lastError`,
a sleep of `2^attempt * 1000` (no jitter) between attempts, and a final
`Failed after multiple retries` error once the loop ends. -/
def fetchWithBackoffAux (trace : Nat → FetchOutcome) :
    Nat → String → RunResult
  | 0, lastError => ⟨0, [], .err ("Failed after multiple retries: " ++ lastError)⟩
  | fuel + 1, _ =>
    let attempt := 3 - (fuel + 1)
    match attemptResult (trace attempt) with
    | .ok body => ⟨1, [], .ok body⟩
    | .error msg =>
      if fuel = 0 then
        ⟨1, [], .err ("Failed after multiple retries: " ++ msg)⟩
      else
        let d := 2 ^ attempt * 1000
        let rest := fetchWithBackoffAux trace fuel msg
        ⟨rest.calls + 1, d :: rest.sleeps, rest.outcome⟩

/-- `fetchWithBackoff(url, options)` from src/unnamed/part_000. -/
def fetchWithBackoff (trace : Nat → FetchOutcome) : RunResult :=
  fetchWithBackoffAux trace 3 ""

end PartZero

/-! ## Substring search (used by index.jsx's retry wrapper and by its
mimeType extraction). -/

/-- Index of the first occurrence of `needle` in `hay`, if any. -/
def findSubIdx (needle : List Char) : List Char → Option Nat
  | [] => if needle.isEmpty then some 0 else none
  | c :: rest =>
    if needle.isPrefixOf (c :: rest) then some 0
    else (findSubIdx needle rest).map (· + 1)

/-- JS `a.includes(b)`. -/
def includesStr (a b : String) : Bool :=
  (findSubIdx b.toList a.toList).isSome

namespace IndexApp

/-- The `API call failed` message thrown by `fetchWithBackoff`
(src/index.jsx line 37). -/
def apiFailMsg (r : HttpResponse) : String :=
  "API call failed: " ++ toString r.status ++ " - " ++ r.body

/-- `fetchWithBackoff(url, options, retries, delay)` from src/index.jsx
lines 27-48.  A 429 with retries left sleeps and recurses; any other
non-ok status throws `API call failed: ...`, which the surrounding catch
retries only when the message contains `API call failed: 5` (a 5xx) and
retries remain; everything else propagates immediately.  Note the budget
counts retries, so `retries = 3` allows up to 4 network calls. -/
def fetchWithBackoff (trace : Nat → FetchOutcome) :
    Nat → Nat → Nat → RunResult
  | 0, _, callIdx =>
    match trace callIdx with
    | .transportError m => ⟨1, [], .err m⟩
    | .response r =>
      if r.isOk then ⟨1, [], .ok r.body⟩
      else ⟨1, [], .err (apiFailMsg r)⟩
  | retries + 1, delay, callIdx =>
    match trace callIdx with
    | .transportError m =>
      if includesStr m "API call failed: 5" then
        let rest := fetchWithBackoff trace retries (delay * 2) (callIdx + 1)
        ⟨rest.calls + 1, delay :: rest.sleeps, rest.outcome⟩
      else ⟨1, [], .err m⟩
    | .response r =>
      if r.status == 429 then
        let rest := fetchWithBackoff trace retries (delay * 2) (callIdx + 1)
        ⟨rest.calls + 1, delay :: rest.sleeps, rest.outcome⟩
      else if r.isOk then ⟨1, [], .ok r.body⟩
      else
        let msg := apiFailMsg r
        if includesStr msg "API call failed: 5" then
          let rest := fetchWithBackoff trace retries (delay * 2) (callIdx + 1)
          ⟨rest.calls + 1, delay :: rest.sleeps, rest.outcome⟩
        else ⟨1, [], .err msg⟩

/-- The wrapper at its observed call site (default `retries = 3`,
`delay = 1000`). -/
def fetchWithBackoffRun (trace : Nat → FetchOutcome) : RunResult :=
  fetchWithBackoff trace 3 1000 0

end IndexApp

/-! ## Generation API response model

The response body exposes generated text at
`candidates[0].content.parts[0].text`, reached through optional chaining:
every level may be absent. -/

structure GenPart where
  text : Option String
deriving DecidableEq, Repr

structure GenContent where
  parts : Option (List GenPart)
deriving DecidableEq, Repr

structure GenCandidate where
  content : Option GenContent
deriving DecidableEq, Repr

structure GenResponse where
  candidates : Option (List GenCandidate)
deriving DecidableEq, Repr

/-- `response.candidates?.[0]?.content?.parts?.[0]?.text`. -/
def extractText (r : GenResponse) : Option String := do
  let cs ← r.candidates
  let c ← cs.head?
  let ct ← c.content
  let ps ← ct.parts
  let p ← ps.head?
  p.text

/-- JS truthiness of the extracted text (`undefined` and `""` are falsy). -/
def usableText (r : GenResponse) : Bool :=
  match extractText r with
  | some t => t != ""
  | none => false

namespace HealthApp

/-- Post-processing of a successful generation response in
`generateContent` / `generateMultimodalContent`
(src/HealthTrackerApp.jsx lines 121-123 and 148-150): if no usable text
is present the function THROWS an Error whose message is
"No se pudo obtener la respuesta de la IA.". -/
def generateContentResult (r : GenResponse) : Except String String :=
  match extractText r with
  | some t => if t = "" then .error "No se pudo obtener la respuesta de la IA." else .ok t
  | none => .error "No se pudo obtener la respuesta de la IA."

end HealthApp

namespace PartZero

/-- Post-processing in `generateAIResponse` (src/unnamed/part_000
line 196): `result.candidates?...?.text || "Error: No se pudo obtener
respuesta de la IA."` — the fallback string is returned, not thrown. -/
def generateAIResponseText (r : GenResponse) : String :=
  match extractText r with
  | some t => if t = "" then "Error: No se pudo obtener respuesta de la IA." else t
  | none => "Error: No se pudo obtener respuesta de la IA."

end PartZero

namespace IndexApp

/-- Post-processing in `runGeneration` (src/index.jsx line 95), identical
in shape to part_000's. -/
def runGenerationText (r : GenResponse) : String :=
  match extractText r with
  | some t => if t = "" then "Error: No se pudo obtener respuesta de la IA." else t
  | none => "Error: No se pudo obtener respuesta de la IA."

end IndexApp

/-! ## Request parts and mimeType handling -/

structure InlineData where
  mimeType : String
  data : String
deriving DecidableEq, Repr

inductive RequestPart where
  | textPart (t : String)
  | inlineDataPart (d : InlineData)
deriving DecidableEq, Repr

/-- The mimeTypes of the inlineData parts of a request. -/
def mimeTypesOf (parts : List RequestPart) : List String :=
  parts.filterMap fun p =>
    match p with
    | .textPart _ => none
    | .inlineDataPart d => some d.mimeType

namespace HealthApp

/-- The `contents[0].parts` built by `generateMultimodalContent`
(src/HealthTrackerApp.jsx lines 130-136): the mimeType is the constant
"image/png" whatever the uploaded file was. -/
def generateMultimodalContentParts (userQuery base64Image : String) :
    List RequestPart :=
  [.textPart userQuery, .inlineDataPart ⟨"image/png", base64Image⟩]

end HealthApp

namespace PartZero

/-- The `parts` built by `generateAIResponse` (src/unnamed/part_000
lines 173-181): a text part plus, when an image is attached, an
inlineData part with the constant mimeType "image/png". -/
def generateAIResponseParts (currentPrompt : String)
    (imageBase64 : Option String) : List RequestPart :=
  [.textPart currentPrompt] ++
    (match imageBase64 with
     | some b => [.inlineDataPart ⟨"image/png", b⟩]
     | none => [])

end PartZero

namespace IndexApp

/-- First match of the regex `/data:(.*?);base64/` on a character list:
the engine scans left to right for the first position where `data:` is
followed (somewhere) by `;base64`; the lazy group captures the characters
up to the FIRST subsequent `;base64`. -/
def regexMime : List Char → Option (List Char)
  | [] => none
  | c :: rest =>
    if ("data:".toList).isPrefixOf (c :: rest) then
      match findSubIdx (";base64".toList) ((c :: rest).drop 5) with
      | some k => some (((c :: rest).drop 5).take k)
      | none => regexMime rest
    else regexMime rest

/-- `base64Image.split(',')[0]`: the characters before the first comma. -/
def urlHead (s : List Char) : List Char := s.takeWhile (· ≠ ',')

/-- `base64Image.split(',')[1]`: the segment between the first and second
comma (empty when absent; JS would give `undefined`). -/
def urlData (s : List Char) : List Char :=
  ((s.dropWhile (· ≠ ',')).drop 1).takeWhile (· ≠ ',')

/-- The mimeType computed by `runGeneration` (src/index.jsx lines 70-72):
the regex capture on the data-URL head, defaulting to "image/jpeg" when
the match fails. -/
def runGenerationMime (base64Image : String) : String :=
  match regexMime (urlHead base64Image.toList) with
  | some m => String.mk m
  | none => "image/jpeg"

/-- The `parts` built by `runGeneration` (src/index.jsx lines 66-80). -/
def runGenerationParts (prompt : String) (base64Image : Option String) :
    List RequestPart :=
  [.textPart prompt] ++
    (match base64Image with
     | some s =>
       [.inlineDataPart ⟨runGenerationMime s, String.mk (urlData s.toList)⟩]
     | none => [])

end IndexApp

/-! ## Weight entries and stable sorting

A weight document carries a numeric weight, an ISO timestamp (modelled as
epoch milliseconds, which is how the listeners compare them via
`new Date(...)`), and a locale-formatted date string.  JS `Array.sort`
is required to be stable, so the client-side sorts are modelled as a
stable insertion sort on the timestamp key. -/

structure WeightEntry where
  weight : JSNum
  timestamp : Nat
  date : String
deriving DecidableEq, Repr

/-- Stable ascending insertion by key: the new element goes after every
element with a strictly smaller key and before the first element whose
key is not smaller (so before earlier-inserted equal keys, which keeps
the sort stable). -/
def insertAscBy (key : α → Nat) (e : α) : List α → List α
  | [] => [e]
  | y :: ys => if key y < key e then y :: insertAscBy key e ys else e :: y :: ys

/-- Stable ascending sort by key, modelling
`arr.sort((a, b) => new Date(a.timestamp) - new Date(b.timestamp))`. -/
def sortAscBy (key : α → Nat) : List α → List α
  | [] => []
  | x :: xs => insertAscBy key x (sortAscBy key xs)

/-- Stable descending insertion by key (mirror image). -/
def insertDescBy (key : α → Nat) (e : α) : List α → List α
  | [] => [e]
  | y :: ys => if key e < key y then y :: insertDescBy key e ys else e :: y :: ys

/-- Stable descending sort by key, modelling
`arr.sort((a, b) => b.timestamp - a.timestamp)`. -/
def sortDescBy (key : α → Nat) : List α → List α
  | [] => []
  | x :: xs => insertDescBy key x (sortDescBy key xs)

namespace HealthApp

/-- The weights `onSnapshot` listener (src/HealthTrackerApp.jsx lines
728-734): collect the snapshot docs and sort ascending by timestamp in
memory.  The output depends only on the delivered snapshot. -/
def weightsProjection (snapshotDocs : List WeightEntry) : List WeightEntry :=
  sortAscBy (·.timestamp) snapshotDocs

/-- The descending table order computed by `WeightHistory`
(src/HealthTrackerApp.jsx line 237). -/
def historyTableOrder (weightData : List WeightEntry) : List WeightEntry :=
  sortDescBy (·.timestamp) weightData

/-- The progress summary computed by `WeightHistory` (lines 243-246):
initial weight, current weight and their difference, from the
ascending-sorted data.  The component early-returns on an empty list, so
the defaults below are never displayed. -/
def weightHistorySummary (weightData : List WeightEntry) :
    JSNum × JSNum × JSNum :=
  let initialWeight := (weightData.head?.map (·.weight)).getD .nan
  let currentWeight := (weightData.getLast?.map (·.weight)).getD .nan
  (initialWeight, currentWeight, currentWeight.sub initialWeight)

end HealthApp

namespace PartZero

/-- The weights listener in part_000's App (src/unnamed/part_000 lines
566-575): same in-memory ascending sort. -/
def weightsProjection (snapshotDocs : List WeightEntry) : List WeightEntry :=
  sortAscBy (·.timestamp) snapshotDocs

/-- The progress figures computed by `WeightTracker` (src/unnamed/part_000
lines 100-103), with 0 defaults for the empty history. -/
def weightTrackerSummary (weightData : List WeightEntry) :
    JSNum × JSNum × JSNum :=
  let initialWeight := (weightData.head?.map (·.weight)).getD (.fin 0)
  let latestWeight := (weightData.getLast?.map (·.weight)).getD (.fin 0)
  (initialWeight, latestWeight, latestWeight.sub initialWeight)

end PartZero

/-! ## Listener error handling (C8)

The listeners' state machines: a feed event is either a delivered
snapshot or a subscription error.  Every handler is a total Lean
function, i.e. nothing is thrown past the projection boundary. -/

inductive FeedEvent where
  | snap (docs : List WeightEntry)
  | failure (msg : String)
deriving DecidableEq, Repr

namespace HealthApp

structure ListenerState where
  weightData : List WeightEntry
deriving DecidableEq, Repr

/-- The weights listener with its error handler (src/HealthTrackerApp.jsx
lines 728-740): a snapshot replaces the state with the sorted docs; an
error logs to the console and substitutes the empty list. -/
def listenerStep (s : ListenerState) : FeedEvent → ListenerState
  | .snap docs => ⟨weightsProjection docs⟩
  | .failure _ => ⟨[]⟩

end HealthApp

namespace PartZero

structure ListenerState where
  weightData : List WeightEntry
deriving DecidableEq, Repr

/-- The weights listener with its error handler (src/unnamed/part_000
lines 566-578): a snapshot replaces the state; the error handler ONLY
logs to the console, leaving the previous state in place. -/
def listenerStep (s : ListenerState) : FeedEvent → ListenerState
  | .snap docs => ⟨weightsProjection docs⟩
  | .failure _ => s

end PartZero

/-- A nutrition-history record as read by index.jsx's listener. -/
structure NutritionRecord where
  description : String
  analysis : String
  timestamp : Nat
  hasImage : Bool
deriving DecidableEq, Repr

inductive NutritionFeedEvent where
  | snap (docs : List NutritionRecord)
  | failure (msg : String)
deriving DecidableEq, Repr

namespace IndexApp

structure ListenerState where
  history : List NutritionRecord
  message : String
  messageType : String
deriving DecidableEq, Repr

/-- The `HomeTracker` history listener (src/index.jsx lines 269-283):
a snapshot replaces the history with the docs sorted descending by
timestamp; an error sets an inline error message but leaves the
previously materialized history in place. -/
def listenerStep (s : ListenerState) : NutritionFeedEvent → ListenerState
  | .snap docs => { s with history := sortDescBy (·.timestamp) docs }
  | .failure m =>
    { s with message := "Error al cargar historial: " ++ m,
             messageType := "error" }

end IndexApp

/-! ## Weight recording (C9) -/

namespace HealthApp

/-- `handleRecord` (src/HealthTrackerApp.jsx lines 169-204), after
authentication: `parsed` is the `parseFloat(weight)` value.  When the
check `isNaN(numericWeight) || numericWeight <= 0` fires, nothing is
written and an inline message is shown; otherwise a new entry keyed by a
fresh timestamp is written. -/
def handleRecord (parsed : JSNum) (timestamp : Nat) (date : String)
    (store : List WeightEntry) : List WeightEntry × String :=
  if parsed.isNaN || parsed.leZero then
    (store, "Por favor, ingresa un peso válido.")
  else
    (store ++ [⟨parsed, timestamp, date⟩], "Peso registrado con éxito.")

end HealthApp

namespace PartZero

/-- `handleSaveWeight` (src/unnamed/part_000 lines 65-95): an empty
input string is rejected first (`!currentWeight`), then the same
`isNaN(weightValue) || weightValue <= 0` check as in HealthTrackerApp. -/
def handleSaveWeight (rawEmpty : Bool) (parsed : JSNum) (timestamp : Nat)
    (date : String) (store : List WeightEntry) : List WeightEntry × String :=
  if rawEmpty then
    (store, "Error: Faltan datos de usuario o peso.")
  else if parsed.isNaN || parsed.leZero then
    (store, "Por favor, ingresa un peso válido.")
  else
    (store ++ [⟨parsed, timestamp, date⟩], "¡Peso guardado con éxito!")

end PartZero

/-! ## AI task handlers (C4): validation versus network call -/

/-- Outcome of a handler invocation: either it stops locally (inline
message, zero network calls) or it hands a built request to the retry
wrapper (at least one network call). -/
inductive HandlerOutcome where
  | localStop (message : String)
  | apiCall (systemInstruction finalPrompt : String)
      (image : Option String) (enableSearch : Bool)
deriving DecidableEq, Repr

/-- Number of network calls initiated directly by the handler
(0 when validation fails, otherwise the wrapper performs at least 1). -/
def HandlerOutcome.issuesCall : HandlerOutcome → Bool
  | .localStop _ => false
  | .apiCall _ _ _ _ => true

namespace HealthApp

/-- String rendering of a JS number inside a template literal
(claims only depend on the call/no-call distinction, not on the exact
digits, so finite values render via their rational form). -/
def jsNumToString : JSNum → String
  | .nan => "NaN"
  | .inf => "Infinity"
  | .negInf => "-Infinity"
  | .fin q => toString q

/-- `handleGetAdvice` (src/HealthTrackerApp.jsx lines 372-399): fewer
than 2 weight records stops locally with an inline error; otherwise a
text summary of the (ascending-sorted) data is sent. -/
def handleGetAdvice (weightData : List WeightEntry) : HandlerOutcome :=
  if weightData.length < 2 then
    .localStop "Necesitas al menos dos registros de peso para generar un consejo de progreso significativo."
  else
    .apiCall
      "Eres un coach de salud y fitness. Analiza los datos de peso proporcionados y ofrece un mensaje de motivación o un consejo actionable (una acción específica) para el usuario. El tono debe ser positivo y alentador. Responde en español y en un párrafo corto."
      ("Historial de peso (Fecha: Peso): " ++
        String.intercalate " | "
          (weightData.map fun d => d.date ++ ": " ++ jsNumToString d.weight))
      none false

/-- `handleAnalyzeFood` (src/HealthTrackerApp.jsx lines 326-347): no
uploaded image stops locally; otherwise the image is converted to base64
and a multimodal request is sent.  The file is modelled by its base64
payload. -/
def handleAnalyzeFood (foodImageFile : Option String) : HandlerOutcome :=
  match foodImageFile with
  | none => .localStop "Por favor, sube una foto de tu comida."
  | some base64Image =>
    .apiCall
      "Eres un nutricionista experto. Analiza la foto de la comida. Estima el tipo de plato, los ingredientes principales, y proporciona una estimación de calorías y un desglose macro. Responde en español y en formato Markdown."
      "Analiza esta comida para obtener información nutricional (calorías, macros)."
      (some base64Image) false

/-- `analyzeSkinImage` in `SkinAnalysisTool` (src/HealthTrackerApp.jsx
lines 551-578): no uploaded image stops locally. -/
def analyzeSkinImage (imageFile : Option String) (notes : String) :
    HandlerOutcome :=
  match imageFile with
  | none => .localStop "Por favor, sube una imagen de tu rostro."
  | some base64Image =>
    .apiCall
      "Eres un dermoconsejero experto. Analiza la imagen del rostro proporcionada por el usuario. Evalúa la textura, luminosidad y el tipo de rostro (ej. óvalo, cuadrado). Proporciona consejos específicos de cuidado de la piel y maquillaje que se adapten a las mejoras visibles o a las áreas de enfoque, y al tipo de rostro. Considera las notas del usuario si existen. Responde en español y en formato Markdown."
      ("Analiza esta imagen de mi rostro para mejoras en la piel y consejos de belleza. " ++
        (if notes ≠ "" then "Notas adicionales: " ++ notes ++ "."
         else "No hay notas adicionales."))
      (some base64Image) false

end HealthApp

namespace PartZero

inductive Tool where
  | mealPlan
  | photoAnalysis
  | symptomCheck
  | progressTips
deriving DecidableEq, Repr

/-- `handleSubmit` of `AITools` (src/unnamed/part_000 lines 235-276).
`fmtDate` models `toLocaleDateString('es-ES')`.  Note the progressTips
branch performs NO check on the number of weight records: with 0 records
it substitutes a fallback summary and with 1 record it summarizes that
single record; in both cases it proceeds to the network call. -/
def handleSubmit (fmtDate : Nat → String) (tool : Tool) (prompt : String)
    (base64Image : Option String) (weightData : List WeightEntry) :
    HandlerOutcome :=
  match tool with
  | .mealPlan =>
    .apiCall
      "Actúa como un dietista y planificador de comidas profesional. Genera un plan semanal conciso basado en la meta proporcionada. La respuesta debe ser solo texto Markdown, sin preámbulo."
      ("Genera un plan de comidas de 7 días (desayuno, almuerzo, cena) para esta meta: " ++ prompt ++ ".")
      none false
  | .photoAnalysis =>
    match base64Image with
    | none => .localStop "Por favor, sube una imagen de tu plato para el análisis nutricional."
    | some img =>
      .apiCall
        "Actúa como un analista nutricional. Basándote en la imagen de la comida, haz una estimación de los ingredientes principales, calorías aproximadas y una breve nota sobre su balance nutricional. Responde con un formato de lista en Markdown."
        "Analiza esta comida y proporciona una estimación nutricional."
        (some img) false
  | .symptomCheck =>
    .apiCall
      "Actúa como un asistente de salud informativa. Analiza los síntomas proporcionados y ofrece información general sobre posibles causas comunes y recomendaciones de estilo de vida. ADVERTENCIA: Nunca proporciones diagnósticos médicos. La respuesta debe ser cautelosa y en formato de lista en Markdown."
      ("Analiza los siguientes síntomas: " ++ prompt)
      none true
  | .progressTips =>
    let progressSummary :=
      match weightData with
      | [] => "No hay historial de peso disponible. La meta es: " ++ prompt
      | w :: ws =>
        let lastEntry := ws.getLastD w
        "El usuario tiene " ++ toString (weightData.length) ++
          " registros. Su peso inicial fue " ++
          HealthApp.jsNumToString w.weight ++ "kg (en " ++
          fmtDate w.timestamp ++ ") y el último peso es " ++
          HealthApp.jsNumToString lastEntry.weight ++ "kg (en " ++
          fmtDate lastEntry.timestamp ++ ")."
    .apiCall
      "Actúa como un entrenador personal y motivador. Analiza el historial de peso proporcionado y la meta del usuario para dar 3 consejos de progreso personalizados y un mensaje de motivación. La respuesta debe ser en formato de lista Markdown."
      ("Analiza este historial y proporciona consejos de progreso basados en la meta: " ++ prompt ++ ". Historial: " ++ progressSummary)
      none false

/-- `handleSubmit` of `SkinJournal` (src/unnamed/part_000 lines 420-431):
a missing image stops locally. -/
def skinHandleSubmit (prompt : String) (base64Image : Option String) :
    HandlerOutcome :=
  match base64Image with
  | none => .localStop "Por favor, sube una foto de tu rostro para el análisis."
  | some img =>
    .apiCall
      "Actúa como un experto en cuidado de la piel (skincare). Analiza la imagen del rostro proporcionada, identifica problemas comunes (como acné, enrojecimiento, sequedad o brillo) y ofrece una rutina básica de cuidado con sugerencias de ingredientes clave. La respuesta debe ser estructurada en Markdown (Análisis, Rutina Sugerida, Ingredientes Clave)."
      ("Analiza la imagen del rostro. El usuario proporciona la siguiente información adicional: " ++
        (if prompt = "" then "Ninguna" else prompt) ++ ". Genera el análisis de la piel.")
      (some img) false

end PartZero

namespace IndexApp

/-- `analyzeSkin` in index.jsx's `SkinJournal` (src/index.jsx lines
452-473): a missing image stops locally with an inline message. -/
def analyzeSkin (base64Image : Option String) (notes : String) :
    HandlerOutcome :=
  match base64Image with
  | none => .localStop "Por favor, sube una imagen de tu piel para analizar."
  | some img =>
    .apiCall
      "Eres un dermatólogo IA experto. Tu tarea es analizar la imagen de la piel provista por el usuario. Responde de forma profesional, concisa y utiliza viñetas (formato Markdown) para el desglose de hallazgos. Nunca diagnostiques o reemplaces a un médico; siempre incluye una advertencia al final de que solo son sugerencias cosméticas/rutinas."
      ("Analiza la condición de la piel en esta imagen. Evalúa el nivel de hidratación, presencia de acné, enrojecimiento, o cualquier otra condición notable. " ++
        (if notes ≠ "" then "Nota adicional del usuario: " ++ notes else "") ++
        ". Proporciona un breve resumen de la condición actual y una sugerencia de rutina de cuidado o ingrediente clave a considerar.")
      (some img) false

end IndexApp

/-! ## Lemmas about the stable sorts -/

section SortLemmas

variable {α : Type _} (key : α → Nat)

theorem insertAscBy_perm (e : α) (l : List α) :
    (insertAscBy key e l).Perm (e :: l) := by
  induction l with
  | nil => simp [insertAscBy]
  | cons y ys ih =>
    by_cases h : key y < key e
    · simp only [insertAscBy, if_pos h]
      exact ((ih.cons y).trans (List.Perm.swap e y ys))
    · simp [insertAscBy, if_neg h]

theorem sortAscBy_perm (l : List α) : (sortAscBy key l).Perm l := by
  induction l with
  | nil => simp [sortAscBy]
  | cons x xs ih =>
    exact (insertAscBy_perm key x (sortAscBy key xs)).trans (ih.cons x)

theorem insertAscBy_pairwise (e : α) (l : List α)
    (h : l.Pairwise (fun a b => key a ≤ key b)) :
    (insertAscBy key e l).Pairwise (fun a b => key a ≤ key b) := by
  induction l with
  | nil => simp [insertAscBy]
  | cons y ys ih =>
    rcases List.pairwise_cons.mp h with ⟨hy, hys⟩
    by_cases hlt : key y < key e
    · simp only [insertAscBy, if_pos hlt]
      refine List.pairwise_cons.mpr ⟨?_, ih hys⟩
      intro b hb
      have hb' := (insertAscBy_perm key e ys).mem_iff.mp hb
      rcases List.mem_cons.mp hb' with rfl | hbys
      · exact Nat.le_of_lt hlt
      · exact hy b hbys
    · simp only [insertAscBy, if_neg hlt]
      refine List.pairwise_cons.mpr ⟨?_, h⟩
      intro b hb
      rcases List.mem_cons.mp hb with rfl | hbys
      · exact Nat.le_of_not_lt hlt
      · exact le_trans (Nat.le_of_not_lt hlt) (hy b hbys)

theorem sortAscBy_pairwise (l : List α) :
    (sortAscBy key l).Pairwise (fun a b => key a ≤ key b) := by
  induction l with
  | nil => simp [sortAscBy]
  | cons x xs ih => exact insertAscBy_pairwise key x _ ih

/-- Stability: the elements at a fixed key keep their original order. -/
theorem insertAscBy_filter_eq (e : α) (l : List α) (t : Nat)
    (he : key e = t) :
    (insertAscBy key e l).filter (fun a => key a == t) =
      e :: l.filter (fun a => key a == t) := by
  induction l with
  | nil => simp [insertAscBy, List.filter, he]
  | cons y ys ih =>
    by_cases hlt : key y < key e
    · have hne : (key y == t) = false := by
        simp only [beq_eq_false_iff_ne, ne_eq]
        omega
      simp only [insertAscBy, if_pos hlt, List.filter, hne, ih]
    · simp only [insertAscBy, if_neg hlt]
      have htrue : (key e == t) = true := by simpa using he
      simp [List.filter, htrue]

theorem insertAscBy_filter_ne (e : α) (l : List α) (t : Nat)
    (he : key e ≠ t) :
    (insertAscBy key e l).filter (fun a => key a == t) =
      l.filter (fun a => key a == t) := by
  have hfalse : (key e == t) = false := by simpa using he
  induction l with
  | nil => simp [insertAscBy, List.filter, hfalse]
  | cons y ys ih =>
    by_cases hlt : key y < key e
    · simp only [insertAscBy, if_pos hlt, List.filter]
      rw [ih]
    · simp only [insertAscBy, if_neg hlt, List.filter, hfalse]

theorem sortAscBy_filter (l : List α) (t : Nat) :
    (sortAscBy key l).filter (fun a => key a == t) =
      l.filter (fun a => key a == t) := by
  induction l with
  | nil => simp [sortAscBy]
  | cons x xs ih =>
    by_cases hx : key x = t
    · rw [sortAscBy, insertAscBy_filter_eq key x _ t hx, ih]
      simp [List.filter, hx]
    · rw [sortAscBy, insertAscBy_filter_ne key x _ t hx, ih]
      simp [List.filter, show (key x == t) = false by simpa using hx]

theorem insertAscBy_of_le_head (e : α) (l : List α)
    (h : ∀ b ∈ l, key e ≤ key b) :
    insertAscBy key e l = e :: l := by
  cases l with
  | nil => rfl
  | cons y ys =>
    have : ¬ key y < key e := Nat.not_lt.mpr (h y (List.mem_cons_self y ys))
    simp [insertAscBy, this]

/-- Sorting an already ascending list leaves it unchanged. -/
theorem sortAscBy_of_pairwise (l : List α)
    (h : l.Pairwise (fun a b => key a ≤ key b)) :
    sortAscBy key l = l := by
  induction l with
  | nil => rfl
  | cons x xs ih =>
    rcases List.pairwise_cons.mp h with ⟨hx, hxs⟩
    rw [sortAscBy, ih hxs]
    exact insertAscBy_of_le_head key x xs hx

/-- Idempotence of the ascending projection. -/
theorem sortAscBy_idem (l : List α) :
    sortAscBy key (sortAscBy key l) = sortAscBy key l :=
  sortAscBy_of_pairwise key _ (sortAscBy_pairwise key l)

theorem insertDescBy_perm (e : α) (l : List α) :
    (insertDescBy key e l).Perm (e :: l) := by
  induction l with
  | nil => simp [insertDescBy]
  | cons y ys ih =>
    by_cases h : key e < key y
    · simp only [insertDescBy, if_pos h]
      exact ((ih.cons y).trans (List.Perm.swap e y ys))
    · simp [insertDescBy, if_neg h]

theorem sortDescBy_perm (l : List α) : (sortDescBy key l).Perm l := by
  induction l with
  | nil => simp [sortDescBy]
  | cons x xs ih =>
    exact (insertDescBy_perm key x (sortDescBy key xs)).trans (ih.cons x)

theorem insertDescBy_pairwise (e : α) (l : List α)
    (h : l.Pairwise (fun a b => key b ≤ key a)) :
    (insertDescBy key e l).Pairwise (fun a b => key b ≤ key a) := by
  induction l with
  | nil => simp [insertDescBy]
  | cons y ys ih =>
    rcases List.pairwise_cons.mp h with ⟨hy, hys⟩
    by_cases hlt : key e < key y
    · simp only [insertDescBy, if_pos hlt]
      refine List.pairwise_cons.mpr ⟨?_, ih hys⟩
      intro b hb
      have hb' := (insertDescBy_perm key e ys).mem_iff.mp hb
      rcases List.mem_cons.mp hb' with rfl | hbys
      · exact Nat.le_of_lt hlt
      · exact hy b hbys
    · simp only [insertDescBy, if_neg hlt]
      refine List.pairwise_cons.mpr ⟨?_, h⟩
      intro b hb
      rcases List.mem_cons.mp hb with rfl | hbys
      · exact Nat.le_of_not_lt hlt
      · exact le_trans (hy b hbys) (Nat.le_of_not_lt hlt)

theorem sortDescBy_pairwise (l : List α) :
    (sortDescBy key l).Pairwise (fun a b => key b ≤ key a) := by
  induction l with
  | nil => simp [sortDescBy]
  | cons x xs ih => exact insertDescBy_pairwise key x _ ih

theorem insertDescBy_filter_eq (e : α) (l : List α) (t : Nat)
    (he : key e = t) :
    (insertDescBy key e l).filter (fun a => key a == t) =
      e :: l.filter (fun a => key a == t) := by
  induction l with
  | nil => simp [insertDescBy, List.filter, he]
  | cons y ys ih =>
    by_cases hlt : key e < key y
    · have hne : (key y == t) = false := by
        simp only [beq_eq_false_iff_ne, ne_eq]
        omega
      simp only [insertDescBy, if_pos hlt, List.filter, hne, ih]
    · simp only [insertDescBy, if_neg hlt]
      have htrue : (key e == t) = true := by simpa using he
      simp [List.filter, htrue]

theorem insertDescBy_filter_ne (e : α) (l : List α) (t : Nat)
    (he : key e ≠ t) :
    (insertDescBy key e l).filter (fun a => key a == t) =
      l.filter (fun a => key a == t) := by
  have hfalse : (key e == t) = false := by simpa using he
  induction l with
  | nil => simp [insertDescBy, List.filter, hfalse]
  | cons y ys ih =>
    by_cases hlt : key e < key y
    · simp only [insertDescBy, if_pos hlt, List.filter]
      rw [ih]
    · simp only [insertDescBy, if_neg hlt, List.filter, hfalse]

theorem sortDescBy_filter (l : List α) (t : Nat) :
    (sortDescBy key l).filter (fun a => key a == t) =
      l.filter (fun a => key a == t) := by
  induction l with
  | nil => simp [sortDescBy]
  | cons x xs ih =>
    by_cases hx : key x = t
    · rw [sortDescBy, insertDescBy_filter_eq key x _ t hx, ih]
      simp [List.filter, hx]
    · rw [sortDescBy, insertDescBy_filter_ne key x _ t hx, ih]
      simp [List.filter, show (key x == t) = false by simpa using hx]

theorem insertDescBy_of_ge_head (e : α) (l : List α)
    (h : ∀ b ∈ l, key b ≤ key e) :
    insertDescBy key e l = e :: l := by
  cases l with
  | nil => rfl
  | cons y ys =>
    have : ¬ key e < key y := Nat.not_lt.mpr (h y (List.mem_cons_self y ys))
    simp [insertDescBy, this]

theorem sortDescBy_of_pairwise (l : List α)
    (h : l.Pairwise (fun a b => key b ≤ key a)) :
    sortDescBy key l = l := by
  induction l with
  | nil => rfl
  | cons x xs ih =>
    rcases List.pairwise_cons.mp h with ⟨hx, hxs⟩
    rw [sortDescBy, ih hxs]
    exact insertDescBy_of_ge_head key x xs hx

theorem sortDescBy_idem (l : List α) :
    sortDescBy key (sortDescBy key l) = sortDescBy key l :=
  sortDescBy_of_pairwise key _ (sortDescBy_pairwise key l)

/-- A weakly ascending list whose keys are pairwise distinct is strictly
ascending. -/
theorem pairwise_lt_of_le_nodup :
    ∀ l : List α, l.Pairwise (fun a b => key a ≤ key b) →
      (l.map key).Nodup → l.Pairwise (fun a b => key a < key b)
  | [], _, _ => List.Pairwise.nil
  | x :: xs, hle, hnd => by
    rcases List.pairwise_cons.mp hle with ⟨hx, hxs⟩
    rw [List.map_cons, List.nodup_cons] at hnd
    refine List.pairwise_cons.mpr ⟨?_, pairwise_lt_of_le_nodup xs hxs hnd.2⟩
    intro b hb
    have h1 := hx b hb
    have h2 : key x ≠ key b := fun he =>
      hnd.1 (he ▸ List.mem_map_of_mem key hb)
    omega

/-- With pairwise-distinct keys, ascending-sortedness pins the list down:
any permutation sorts to the unique strictly ascending arrangement. -/
theorem sortAscBy_eq_of_perm_of_sorted {l m : List α}
    (hp : l.Perm m) (hm : m.Pairwise (fun a b => key a < key b)) :
    sortAscBy key l = m := by
  haveI : IsAntisymm α (fun a b => key a < key b) :=
    ⟨fun a b h h' => absurd (Nat.lt_trans h h') (Nat.lt_irrefl _)⟩
  have hperm : (sortAscBy key l).Perm m := (sortAscBy_perm key l).trans hp
  have hnodupm : (m.map key).Nodup := by
    exact List.Pairwise.map key (fun a b h => Nat.ne_of_lt h) hm
  have hnodup : ((sortAscBy key l).map key).Nodup :=
    (hperm.map key).nodup_iff.mpr hnodupm
  have hsorted : (sortAscBy key l).Pairwise (fun a b => key a < key b) :=
    pairwise_lt_of_le_nodup key _ (sortAscBy_pairwise key l) hnodup
  exact List.eq_of_perm_of_sorted hperm hsorted hm

end SortLemmas

/-! ## Lemmas about the retry wrappers -/

namespace HealthApp

theorem fetchWithRetryAux_calls_le (trace : Nat → FetchOutcome)
    (jitter : Nat → Nat) (maxRetries : Nat) :
    ∀ fuel, (fetchWithRetryAux trace jitter maxRetries fuel).calls ≤ fuel
  | 0 => Nat.le_refl 0
  | fuel + 1 => by
    have ih := fetchWithRetryAux_calls_le trace jitter maxRetries fuel
    simp only [fetchWithRetryAux]
    cases attemptResult (trace (maxRetries - (fuel + 1))) with
    | ok body => simpa using Nat.le_add_left 1 fuel
    | error msg =>
      by_cases h : fuel = 0
      · simp [h]
      · simp only [if_neg h]
        exact Nat.add_le_add_right ih 1

/-- `fetchWithRetry` never makes more than `maxRetries` network calls. -/
theorem fetchWithRetry_calls_le (trace : Nat → FetchOutcome)
    (jitter : Nat → Nat) (maxRetries : Nat) :
    (fetchWithRetry trace jitter maxRetries).calls ≤ maxRetries :=
  fetchWithRetryAux_calls_le trace jitter maxRetries maxRetries

/-- On an all-failing trace, the loop runs its full budget: `fuel` calls,
a backoff sleep after each non-final attempt, and the error of the LAST
attempt as the final outcome. -/
theorem fetchWithRetryAux_all_err (trace : Nat → FetchOutcome)
    (jitter : Nat → Nat) (maxRetries : Nat) (msgs : Nat → String)
    (herr : ∀ j, attemptResult (trace j) = .error (msgs j)) :
    ∀ fuel, 1 ≤ fuel → fuel ≤ maxRetries →
      fetchWithRetryAux trace jitter maxRetries fuel =
        ⟨fuel,
         (List.range (fuel - 1)).map
           (fun k => 2 ^ (maxRetries - fuel + k) * 1000 +
             jitter (maxRetries - fuel + k)),
         .err (msgs (maxRetries - 1))⟩
  | 0, h1, _ => absurd h1 (by omega)
  | fuel + 1, _, hle => by
    simp only [fetchWithRetryAux, herr]
    cases hf : fuel with
    | zero =>
      subst hf
      simp only [if_pos rfl]
      have : maxRetries - (0 + 1) = maxRetries - 1 := by omega
      simp [this]
    | succ fuel' =>
      subst hf
      have ih := fetchWithRetryAux_all_err trace jitter maxRetries msgs herr
        (fuel' + 1) (by omega) (by omega)
      simp only [if_neg (Nat.succ_ne_zero fuel'), ih]
      refine congrArg (RunResult.mk _ · _) ?_
      simp only [Nat.add_sub_cancel]
      rw [List.range_succ_eq_map, List.map_cons, List.map_map]
      refine congrArg₂ List.cons ?_ ?_
      · simp
      · refine List.map_congr_left ?_
        intro k _
        have harg : maxRetries - (fuel' + 1 + 1) + (k + 1) =
            maxRetries - (fuel' + 1) + k := by omega
        simp only [Function.comp_apply, Nat.succ_eq_add_one, harg]

/-- On an all-failing trace with budget `N ≥ 1`, `fetchWithRetry` makes
exactly `N` calls, sleeps `2^i * 1000 + jitter i` before retry `i` for
`i = 0 .. N-2`, and raises the last attempt's error. -/
theorem fetchWithRetry_all_err (trace : Nat → FetchOutcome)
    (jitter : Nat → Nat) (maxRetries : Nat) (msgs : Nat → String)
    (herr : ∀ j, attemptResult (trace j) = .error (msgs j))
    (hN : 1 ≤ maxRetries) :
    fetchWithRetry trace jitter maxRetries =
      ⟨maxRetries,
       (List.range (maxRetries - 1)).map
         (fun k => 2 ^ k * 1000 + jitter k),
       .err (msgs (maxRetries - 1))⟩ := by
  rw [fetchWithRetry,
    fetchWithRetryAux_all_err trace jitter maxRetries msgs herr maxRetries hN
      (Nat.le_refl _)]
  refine congrArg (RunResult.mk _ · _) ?_
  refine List.map_congr_left ?_
  intro k _
  rw [Nat.sub_self, Nat.zero_add]

end HealthApp

/-- Sum of the exponential backoff schedule with jitter:
`1000 * (2^n - 1)` plus the accumulated jitter. -/
theorem backoff_schedule_sum (jitter : Nat → Nat) (n : Nat) :
    ((List.range n).map (fun k => 2 ^ k * 1000 + jitter k)).sum =
      1000 * (2 ^ n - 1) + ((List.range n).map jitter).sum := by
  induction n with
  | zero => simp
  | succ n ih =>
    have h1 : 1 ≤ 2 ^ n := Nat.one_le_two_pow
    rw [List.range_succ, List.map_append, List.map_append,
      List.sum_append, List.sum_append, ih]
    simp only [List.map_cons, List.map_nil, List.sum_cons, List.sum_nil]
    have h2 : 2 ^ (n + 1) = 2 * 2 ^ n := by ring
    omega

namespace PartZero

/-- On an all-failing trace, part_000's `fetchWithBackoff` makes exactly
3 calls, sleeps exactly 1000 then 2000 (no jitter), and raises
`Failed after multiple retries` wrapping the LAST attempt's error. -/
theorem fetchWithBackoff_all_err (trace : Nat → FetchOutcome)
    (msgs : Nat → String)
    (herr : ∀ j, attemptResult (trace j) = .error (msgs j)) :
    fetchWithBackoff trace =
      ⟨3, [1000, 2000],
       .err ("Failed after multiple retries: " ++ msgs 2)⟩ := by
  simp [fetchWithBackoff, fetchWithBackoffAux, herr]

end PartZero

namespace IndexApp

theorem fetchWithBackoff_calls_le (trace : Nat → FetchOutcome) :
    ∀ retries delay callIdx,
      (fetchWithBackoff trace retries delay callIdx).calls ≤ retries + 1
  | 0, delay, callIdx => by
    simp only [fetchWithBackoff]
    cases trace callIdx with
    | transportError m => simp
    | response r =>
      by_cases h : r.isOk <;> simp [h]
  | retries + 1, delay, callIdx => by
    have ih := fetchWithBackoff_calls_le trace retries (delay * 2) (callIdx + 1)
    simp only [fetchWithBackoff]
    cases trace callIdx with
    | transportError m =>
      by_cases h : includesStr m "API call failed: 5" = true
      · simp only [if_pos h]
        omega
      · simp only [if_neg h]
        omega
    | response r =>
      by_cases h429 : (r.status == 429) = true
      · simp only [if_pos h429]
        omega
      · simp only [if_neg h429]
        by_cases hok : r.isOk = true
        · simp [hok]
        · simp only [if_neg hok]
          by_cases h5 : includesStr (apiFailMsg r) "API call failed: 5" = true
          · simp only [if_pos h5]
            omega
          · simp only [if_neg h5]
            omega

/-- index.jsx's wrapper can exceed the claimed 3-call bound: with
`retries = 3` and a 429 on every attempt it makes 4 calls, sleeping
1000, 2000, 4000, and raises the LAST attempt's error. -/
theorem fetchWithBackoffRun_429 (bodies : Nat → String) :
    fetchWithBackoffRun
        (fun j => .response ⟨429, bodies j, none⟩) =
      ⟨4, [1000, 2000, 4000],
       .err ("API call failed: 429 - " ++ bodies 3)⟩ := by
  simp [fetchWithBackoffRun, fetchWithBackoff, apiFailMsg,
    HttpResponse.isOk]
  rfl

end IndexApp

/-! ## Lemmas about the mimeType extraction (C10) -/

theorem isPrefixOf_append_self (p t : List Char) :
    p.isPrefixOf (p ++ t) = true := by
  induction p with
  | nil => simp [List.isPrefixOf]
  | cons a as ih => simp [List.isPrefixOf, ih]

theorem findSubIdx_eq_zero (needle hay : List Char)
    (h : needle.isPrefixOf hay = true) (hne : hay ≠ []) :
    findSubIdx needle hay = some 0 := by
  cases hay with
  | nil => exact absurd rfl hne
  | cons c rest => simp [findSubIdx, h]

/-- First occurrence of `;base64` in `m ++ ";base64" ++ rest` when `m`
contains no semicolon: exactly at index `m.length`. -/
theorem findSubIdx_semiB64 (m rest : List Char)
    (hm : ∀ c ∈ m, c ≠ ';') :
    findSubIdx (";base64".toList) (m ++ (";base64".toList ++ rest)) =
      some m.length := by
  induction m with
  | nil =>
    rw [List.nil_append, List.length_nil]
    refine findSubIdx_eq_zero _ _ (isPrefixOf_append_self _ _) ?_
    simp [String.toList]
  | cons c m' ih =>
    have hc : c ≠ ';' := hm c (List.mem_cons_self c m')
    have hbc : (';' == c) = false := beq_eq_false_iff_ne.mpr (Ne.symm hc)
    have hpre : (";base64".toList).isPrefixOf
        (c :: (m' ++ (";base64".toList ++ rest))) = false := by
      show (';' == c && ("base64".toList).isPrefixOf
        (m' ++ (";base64".toList ++ rest))) = false
      rw [hbc, Bool.false_and]
    have step : findSubIdx (";base64".toList)
        (c :: (m' ++ (";base64".toList ++ rest))) =
        (findSubIdx (";base64".toList)
          (m' ++ (";base64".toList ++ rest))).map (· + 1) := by
      rw [findSubIdx,
        if_neg (by intro h; rw [hpre] at h; exact absurd h (by decide))]
    rw [List.cons_append, step,
      ih (fun x hx => hm x (List.mem_cons_of_mem c hx))]
    simp

/-- The regex `/data:(.*?);base64/` on a head of the form
`data:<m>;base64` with no semicolon in `m` captures exactly `m`. -/
theorem regexMime_data (m : List Char) (hm : ∀ c ∈ m, c ≠ ';') :
    IndexApp.regexMime ("data:".toList ++ (m ++ ";base64".toList)) =
      some m := by
  have hd : "data:".toList = ['d','a','t','a',':'] := rfl
  rw [hd]
  simp only [List.cons_append, List.nil_append]
  rw [IndexApp.regexMime]
  have hpre : ("data:".toList).isPrefixOf
      ('d' :: 'a' :: 't' :: 'a' :: ':' :: (m ++ ";base64".toList)) = true := by
    rw [hd]
    simp [List.isPrefixOf]
  rw [if_pos hpre]
  have hdrop : ('d' :: 'a' :: 't' :: 'a' :: ':' ::
      (m ++ ";base64".toList)).drop 5 = m ++ ";base64".toList := rfl
  rw [hdrop]
  have hfind := findSubIdx_semiB64 m [] hm
  rw [List.append_nil] at hfind
  rw [hfind]
  show some ((m ++ ";base64".toList).take m.length) = some m
  rw [List.take_left m]

/-- `takeWhile` stops exactly at the first failing element. -/
theorem takeWhile_append_cons {α : Type _} (p : α → Bool) (l : List α)
    (c : α) (r : List α) (hl : ∀ x ∈ l, p x = true) (hc : p c = false) :
    (l ++ c :: r).takeWhile p = l := by
  induction l with
  | nil => simp [List.takeWhile, hc]
  | cons y ys ih =>
    rw [List.cons_append, List.takeWhile_cons,
      hl y (List.mem_cons_self y ys),
      ih (fun x hx => hl x (List.mem_cons_of_mem y hx))]
    simp

/-- `runGenerationMime` on a well-formed data URL `data:<m>;base64,<d>`
(no `;` or `,` inside the mime type) recovers exactly `m`. -/
theorem runGenerationMime_dataUrl (m d : String)
    (hsemi : ∀ c ∈ m.toList, c ≠ ';')
    (hcomma : ∀ c ∈ m.toList, c ≠ ',') :
    IndexApp.runGenerationMime ("data:" ++ m ++ ";base64," ++ d) = m := by
  have hsplit : ("data:" ++ m ++ ";base64," ++ d).toList =
      ("data:".toList ++ (m.toList ++ ";base64".toList)) ++
        (',' :: d.toList) := by
    show ("data:".toList ++ m.toList ++ ";base64,".toList ++ d.toList) = _
    have hb : ";base64,".toList = ";base64".toList ++ [','] := rfl
    rw [hb]
    simp [List.append_assoc]
  have hhead : IndexApp.urlHead ("data:" ++ m ++ ";base64," ++ d).toList =
      "data:".toList ++ (m.toList ++ ";base64".toList) := by
    rw [IndexApp.urlHead, hsplit]
    refine takeWhile_append_cons _ _ _ _ ?_ (by simp)
    intro x hx
    simp only [List.append_assoc, List.mem_append] at hx
    rcases hx with hx | hx | hx
    · have hd : "data:".toList = ['d','a','t','a',':'] := rfl
      rw [hd] at hx
      fin_cases hx <;> simp
    · simpa using hcomma x hx
    · have hb : ";base64".toList = [';','b','a','s','e','6','4'] := rfl
      rw [hb] at hx
      fin_cases hx <;> simp
  rw [IndexApp.runGenerationMime, hhead, regexMime_data m.toList hsemi]
  rfl

/-- The descending projection used by index.jsx's history listener. -/
def IndexApp.historyProjection (docs : List NutritionRecord) :
    List NutritionRecord :=
  sortDescBy (fun r => r.timestamp) docs

/-- Sum of a bounded function over an initial segment. -/
theorem sum_map_le_of_bound (f : Nat → Nat) (b n : Nat)
    (h : ∀ i, f i ≤ b) : ((List.range n).map f).sum ≤ n * b := by
  induction n with
  | zero => simp
  | succ n ih =>
    rw [List.range_succ, List.map_append, List.sum_append]
    simp only [List.map_cons, List.map_nil, List.sum_cons, List.sum_nil]
    have := h n
    have h2 : (n + 1) * b = n * b + b := by ring
    omega

/-- C1: the claim says every retry wrapper terminates immediately on a
non-transient status (one call, no sleep).  Evaluating the embedded code
on a constant HTTP 403 trace shows the HealthTrackerApp and part_000
wrappers RETRY it — 3 calls and 2 backoff sleeps each — because the 403
error is thrown inside the same try/catch that performs the retries,
contradicting fetchWithRetry's own comment; only index.jsx's wrapper
fails immediately with one call, no sleep, and the status and body in
the raised message. -/
theorem claim_C1_nontransient_eval :
    HealthApp.fetchWithRetry
        (fun _ => .response ⟨403, "denied", some "Forbidden"⟩)
        (fun _ => 0) 3 =
      ⟨3, [1000, 2000], .err "Forbidden"⟩ ∧
    PartZero.fetchWithBackoff
        (fun _ => .response ⟨403, "denied", some "Forbidden"⟩) =
      ⟨3, [1000, 2000],
       .err "Failed after multiple retries: HTTP error! status: 403. Details: denied"⟩ ∧
    IndexApp.fetchWithBackoffRun
        (fun _ => .response ⟨403, "denied", some "Forbidden"⟩) =
      ⟨1, [], .err "API call failed: 403 - denied"⟩ := by
  refine ⟨rfl, by decide, rfl⟩

/-- C2 (counterexample): with the observed budget 3, index.jsx's
fetchWithBackoff issues 4 network calls on an all-transient run — its
budget counts retries, not attempts — refuting "at most 3 network calls
are issued". -/
theorem claim_C2_counterexample :
    (IndexApp.fetchWithBackoffRun
        (fun _ => .response ⟨500, "boom", none⟩)).calls = 4 ∧
    ¬ (IndexApp.fetchWithBackoffRun
        (fun _ => .response ⟨500, "boom", none⟩)).calls ≤ 3 := by
  have h : (IndexApp.fetchWithBackoffRun
      (fun _ => .response ⟨500, "boom", none⟩)).calls = 4 := rfl
  exact ⟨h, by rw [h]; omega⟩

/-- C2 (amended): fetchWithRetry issues at most 3 calls and, when every
attempt fails, fails after exactly 3 calls with the last attempt's error;
index.jsx's fetchWithBackoff issues at most 3 + 1 calls, and on an
all-429 run makes exactly 4 calls and raises the last attempt's error. -/
theorem claim_C2_amended (traceHT : Nat → FetchOutcome) (jitter : Nat → Nat)
    (msgs : Nat → String)
    (herr : ∀ j, HealthApp.attemptResult (traceHT j) = .error (msgs j))
    (bodies : Nat → String) :
    (∀ tr jit, (HealthApp.fetchWithRetry tr jit 3).calls ≤ 3) ∧
    (HealthApp.fetchWithRetry traceHT jitter 3).calls = 3 ∧
    (HealthApp.fetchWithRetry traceHT jitter 3).outcome = .err (msgs 2) ∧
    (∀ tr, (IndexApp.fetchWithBackoffRun tr).calls ≤ 3 + 1) ∧
    IndexApp.fetchWithBackoffRun (fun j => .response ⟨429, bodies j, none⟩) =
      ⟨4, [1000, 2000, 4000],
       .err ("API call failed: 429 - " ++ bodies 3)⟩ := by
  have hrun := HealthApp.fetchWithRetry_all_err traceHT jitter 3 msgs herr
    (by omega)
  refine ⟨fun tr jit => HealthApp.fetchWithRetry_calls_le tr jit 3, ?_, ?_,
    fun tr => IndexApp.fetchWithBackoff_calls_le tr 3 1000 0,
    IndexApp.fetchWithBackoffRun_429 bodies⟩
  · rw [hrun]
  · rw [hrun]

theorem claim_C2_amended_witness :
    (HealthApp.fetchWithRetry (fun _ => .response ⟨503, "x", none⟩)
      (fun _ => 0) 3).calls = 3 ∧
    (HealthApp.fetchWithRetry (fun _ => .response ⟨503, "x", none⟩)
      (fun _ => 0) 3).outcome = .err "Server or Rate Limit Error: 503" ∧
    IndexApp.fetchWithBackoffRun (fun _ => .response ⟨429, "r", none⟩) =
      ⟨4, [1000, 2000, 4000], .err ("API call failed: 429 - " ++ "r")⟩ := by
  have h := claim_C2_amended (fun _ => .response ⟨503, "x", none⟩)
    (fun _ => 0) (fun _ => "Server or Rate Limit Error: 503")
    (fun _ => rfl) (fun _ => "r")
  exact ⟨h.2.1, h.2.2.1, h.2.2.2.2⟩

/-- C3 (counterexample): on an all-transient run of part_000's wrapper
(budget N = 3, base delay 1000) the total elapsed delay is exactly
3000 ms, not the claimed 1000 × (2^3 − 1) = 7000 ms — and this path has
no jitter at all, so no jitter tolerance can bridge the gap. -/
theorem claim_C3_counterexample :
    (PartZero.fetchWithBackoff
        (fun _ => .response ⟨500, "boom", none⟩)).totalSleep = 3000 ∧
    1000 * (2 ^ 3 - 1) = 7000 ∧ (3000 : Nat) ≠ 7000 := by
  refine ⟨by decide, rfl, by omega⟩

/-- C3 (amended): on an all-transient run with budget N ≥ 1 and base delay
1000, the delay slept before retry i is 1000 × 2^i (plus jitter i < 1000
in fetchWithRetry; no jitter in part_000's wrapper), and the TOTAL elapsed
delay is 1000 × (2^(N−1) − 1) plus the accumulated jitter (which is at
most (N−1) × 1000); for part_000's fixed N = 3 the total is exactly
1000 × (2^2 − 1) = 3000. -/
theorem claim_C3_amended (traceHT trace0 : Nat → FetchOutcome)
    (jitter : Nat → Nat) (msgsHT msgs0 : Nat → String) (N : Nat)
    (hN : 1 ≤ N) (hjit : ∀ i, jitter i < 1000)
    (herrHT : ∀ j, HealthApp.attemptResult (traceHT j) = .error (msgsHT j))
    (herr0 : ∀ j, PartZero.attemptResult (trace0 j) = .error (msgs0 j)) :
    (HealthApp.fetchWithRetry traceHT jitter N).sleeps =
      (List.range (N - 1)).map (fun i => 2 ^ i * 1000 + jitter i) ∧
    (HealthApp.fetchWithRetry traceHT jitter N).totalSleep =
      1000 * (2 ^ (N - 1) - 1) + ((List.range (N - 1)).map jitter).sum ∧
    ((List.range (N - 1)).map jitter).sum ≤ (N - 1) * 1000 ∧
    (PartZero.fetchWithBackoff trace0).sleeps =
      (List.range 2).map (fun i => 2 ^ i * 1000) ∧
    (PartZero.fetchWithBackoff trace0).totalSleep = 1000 * (2 ^ 2 - 1) := by
  have hrun := HealthApp.fetchWithRetry_all_err traceHT jitter N msgsHT
    herrHT hN
  have hrun0 := PartZero.fetchWithBackoff_all_err trace0 msgs0 herr0
  refine ⟨?_, ?_, ?_, ?_, ?_⟩
  · rw [hrun]
  · rw [hrun]
    exact backoff_schedule_sum jitter (N - 1)
  · exact sum_map_le_of_bound jitter 1000 (N - 1)
      (fun i => Nat.le_of_lt (hjit i))
  · rw [hrun0]
    rfl
  · rw [hrun0]
    rfl

theorem claim_C3_amended_witness :
    (HealthApp.fetchWithRetry (fun _ => .response ⟨503, "x", none⟩)
      (fun _ => 7) 3).sleeps =
      (List.range 2).map (fun i => 2 ^ i * 1000 + 7) ∧
    (PartZero.fetchWithBackoff
      (fun _ => .response ⟨503, "x", none⟩)).totalSleep =
      1000 * (2 ^ 2 - 1) := by
  have h := claim_C3_amended (fun _ => .response ⟨503, "x", none⟩)
    (fun _ => .response ⟨503, "x", none⟩) (fun _ => 7)
    (fun _ => "Server or Rate Limit Error: 503")
    (fun _ => "HTTP error! status: 503. Details: x") 3 (by omega)
    (fun _ => by show (7 : Nat) < 1000; omega) (fun _ => rfl) (fun _ => rfl)
  exact ⟨h.1, h.2.2.2.2⟩

/-- C4 (counterexample): part_000's progress-advice path performs NO
fewer-than-2-entries validation: with a single weight record (length
1 < 2) `handleSubmit` still builds a summary and issues a network call,
refuting "zero network calls". -/
theorem claim_C4_counterexample :
    (PartZero.handleSubmit (fun _ => "1/1/2024") .progressTips
        "mantener mi peso" none
        [⟨.fin 80, 1, "1/1/2024"⟩]).issuesCall = true ∧
    ([(⟨.fin 80, 1, "1/1/2024"⟩ : WeightEntry)]).length < 2 := by
  exact ⟨rfl, by decide⟩

/-- C4 (amended): a missing image stops photo-analysis and skin-analysis
locally with zero network calls in every path, and HealthTrackerApp's
progress-advice stops locally when fewer than 2 weight records exist;
but part_000's progress-advice path has no record-count validation and
issues a network call whatever the history. -/
theorem claim_C4_amended :
    (∀ wd : List WeightEntry, wd.length < 2 →
      HealthApp.handleGetAdvice wd =
        .localStop "Necesitas al menos dos registros de peso para generar un consejo de progreso significativo." ∧
      (HealthApp.handleGetAdvice wd).issuesCall = false) ∧
    (∀ notes, (HealthApp.handleAnalyzeFood none).issuesCall = false ∧
      (HealthApp.analyzeSkinImage none notes).issuesCall = false) ∧
    (∀ fmt prompt wd,
      (PartZero.handleSubmit fmt .photoAnalysis prompt none wd).issuesCall
        = false) ∧
    (∀ prompt, (PartZero.skinHandleSubmit prompt none).issuesCall = false) ∧
    (∀ notes, (IndexApp.analyzeSkin none notes).issuesCall = false) ∧
    (∀ fmt prompt wd,
      (PartZero.handleSubmit fmt .progressTips prompt none wd).issuesCall
        = true) := by
  refine ⟨?_, fun notes => ⟨rfl, rfl⟩, fun fmt prompt wd => rfl,
    fun prompt => rfl, fun notes => rfl, fun fmt prompt wd => ?_⟩
  · intro wd h
    have hstop : HealthApp.handleGetAdvice wd =
        .localStop "Necesitas al menos dos registros de peso para generar un consejo de progreso significativo." := by
      rw [HealthApp.handleGetAdvice, if_pos h]
    exact ⟨hstop, by rw [hstop]; rfl⟩
  · cases wd <;> rfl

theorem claim_C4_amended_witness :
    HealthApp.handleGetAdvice [⟨.fin 80, 1, "d"⟩] =
      .localStop "Necesitas al menos dos registros de peso para generar un consejo de progreso significativo." ∧
    (PartZero.handleSubmit (fun _ => "d") .progressTips "meta" none
      []).issuesCall = true := by
  have h := claim_C4_amended
  exact ⟨(h.1 [⟨.fin 80, 1, "d"⟩] (by decide)).1,
    h.2.2.2.2.2 (fun _ => "d") "meta" []⟩

/-- C5 (counterexample): on an empty generation response,
HealthTrackerApp's generateContent THROWS (its message also reads
"... obtener la respuesta ..."), and the non-throwing paths yield
"Error: No se pudo obtener respuesta de la IA." — which is not the
claimed literal "No se pudo obtener respuesta de la IA.". -/
theorem claim_C5_counterexample :
    HealthApp.generateContentResult ⟨some []⟩ =
      .error "No se pudo obtener la respuesta de la IA." ∧
    PartZero.generateAIResponseText ⟨some []⟩ =
      "Error: No se pudo obtener respuesta de la IA." ∧
    "Error: No se pudo obtener respuesta de la IA." ≠
      "No se pudo obtener respuesta de la IA." := by
  refine ⟨rfl, rfl, by decide⟩

/-- C5 (amended): whenever a generation response carries no usable text,
part_000's generateAIResponse and index.jsx's runGeneration yield the
message "Error: No se pudo obtener respuesta de la IA." without throwing,
while HealthTrackerApp's generateContent/generateMultimodalContent throw
an Error with message "No se pudo obtener la respuesta de la IA.". -/
theorem claim_C5_amended (r : GenResponse) (h : usableText r = false) :
    PartZero.generateAIResponseText r =
      "Error: No se pudo obtener respuesta de la IA." ∧
    IndexApp.runGenerationText r =
      "Error: No se pudo obtener respuesta de la IA." ∧
    HealthApp.generateContentResult r =
      .error "No se pudo obtener la respuesta de la IA." := by
  rw [usableText] at h
  cases hx : extractText r with
  | none =>
    rw [hx] at h
    refine ⟨?_, ?_, ?_⟩ <;>
      simp [PartZero.generateAIResponseText, IndexApp.runGenerationText,
        HealthApp.generateContentResult, hx]
  | some t =>
    rw [hx] at h
    have ht : t = "" := by simpa using h
    subst ht
    refine ⟨?_, ?_, ?_⟩ <;>
      simp [PartZero.generateAIResponseText, IndexApp.runGenerationText,
        HealthApp.generateContentResult, hx]

theorem claim_C5_amended_witness :
    PartZero.generateAIResponseText ⟨none⟩ =
      "Error: No se pudo obtener respuesta de la IA." ∧
    HealthApp.generateContentResult ⟨none⟩ =
      .error "No se pudo obtener la respuesta de la IA." := by
  have h := claim_C5_amended ⟨none⟩ rfl
  exact ⟨h.1, h.2.2⟩

/-- Stable descending sort of a strictly ascending 3-element list. -/
theorem sortDescBy_three {α : Type _} (key : α → Nat) (a b c : α)
    (hab : key a < key b) (hbc : key b < key c) :
    sortDescBy key [a, b, c] = [c, b, a] := by
  have hac : key a < key c := Nat.lt_trans hab hbc
  simp [sortDescBy, insertDescBy, hab, hbc, hac]

/-- C6: each listener's materialized output is the delivered snapshot's
records stably sorted by timestamp (a permutation, pairwise ordered, and
records with equal timestamps keep their delivery order), re-applying the
projection leaves the set unchanged (idempotence), and the output is a
function of the delivered snapshot alone (independent of the previous
listener state). -/
theorem claim_C6_projection (docs : List WeightEntry) (t : Nat)
    (docsN : List NutritionRecord) :
    (HealthApp.weightsProjection docs).Perm docs ∧
    (HealthApp.weightsProjection docs).Pairwise
      (fun a b => a.timestamp ≤ b.timestamp) ∧
    (HealthApp.weightsProjection docs).filter (fun a => a.timestamp == t) =
      docs.filter (fun a => a.timestamp == t) ∧
    HealthApp.weightsProjection (HealthApp.weightsProjection docs) =
      HealthApp.weightsProjection docs ∧
    (∀ s s2 : HealthApp.ListenerState,
      HealthApp.listenerStep s (.snap docs) =
        HealthApp.listenerStep s2 (.snap docs)) ∧
    PartZero.weightsProjection docs = HealthApp.weightsProjection docs ∧
    (IndexApp.historyProjection docsN).Perm docsN ∧
    (IndexApp.historyProjection docsN).Pairwise
      (fun a b => b.timestamp ≤ a.timestamp) ∧
    (IndexApp.historyProjection docsN).filter (fun a => a.timestamp == t) =
      docsN.filter (fun a => a.timestamp == t) ∧
    IndexApp.historyProjection (IndexApp.historyProjection docsN) =
      IndexApp.historyProjection docsN := by
  exact ⟨sortAscBy_perm _ docs, sortAscBy_pairwise _ docs,
    sortAscBy_filter _ docs t, sortAscBy_idem _ docs,
    fun s s2 => rfl, rfl,
    sortDescBy_perm _ docsN, sortDescBy_pairwise _ docsN,
    sortDescBy_filter _ docsN t, sortDescBy_idem _ docsN⟩

/-- C7: for a snapshot holding exactly the entries (T1, 80), (T2, 78),
(T3, 76) with T1 < T2 < T3, delivered in any order, the ascending
projection yields them in timestamp order, the progress summaries report
initial weight 80, latest weight 76 and total change −4, and the history
display orders the entries descending as [T3, T2, T1]. -/
theorem claim_C7_scenario (t1 t2 t3 : Nat) (d1 d2 d3 : String)
    (h12 : t1 < t2) (h23 : t2 < t3) (input : List WeightEntry)
    (hp : input.Perm [⟨.fin 80, t1, d1⟩, ⟨.fin 78, t2, d2⟩,
      ⟨.fin 76, t3, d3⟩]) :
    HealthApp.weightsProjection input =
      [⟨.fin 80, t1, d1⟩, ⟨.fin 78, t2, d2⟩, ⟨.fin 76, t3, d3⟩] ∧
    HealthApp.weightHistorySummary (HealthApp.weightsProjection input) =
      (.fin 80, .fin 76, .fin (-4)) ∧
    PartZero.weightTrackerSummary (HealthApp.weightsProjection input) =
      (.fin 80, .fin 76, .fin (-4)) ∧
    (HealthApp.historyTableOrder
        (HealthApp.weightsProjection input)).map (fun e => e.timestamp) =
      [t3, t2, t1] := by
  have hsorted : ([⟨.fin 80, t1, d1⟩, ⟨.fin 78, t2, d2⟩,
      ⟨.fin 76, t3, d3⟩] : List WeightEntry).Pairwise
      (fun a b => a.timestamp < b.timestamp) := by
    refine List.pairwise_cons.mpr ⟨?_, List.pairwise_cons.mpr
      ⟨?_, List.pairwise_singleton _ _⟩⟩
    · intro b hb
      rcases List.mem_cons.mp hb with rfl | hb
      · exact h12
      · rcases List.mem_cons.mp hb with rfl | hb
        · exact Nat.lt_trans h12 h23
        · cases hb
    · intro b hb
      rcases List.mem_cons.mp hb with rfl | hb
      · exact h23
      · cases hb
  have hproj : HealthApp.weightsProjection input =
      [⟨.fin 80, t1, d1⟩, ⟨.fin 78, t2, d2⟩, ⟨.fin 76, t3, d3⟩] := by
    show sortAscBy (fun e => e.timestamp) input = _
    exact sortAscBy_eq_of_perm_of_sorted _ hp hsorted
  have hsub : (JSNum.fin 76).sub (JSNum.fin 80) = JSNum.fin (-4) := by
    show JSNum.fin ((76 : ℚ) - 80) = JSNum.fin (-4)
    norm_num
  refine ⟨hproj, ?_, ?_, ?_⟩
  · rw [hproj]
    show (JSNum.fin 80, JSNum.fin 76,
      (JSNum.fin 76).sub (JSNum.fin 80)) = _
    rw [hsub]
  · rw [hproj]
    show (JSNum.fin 80, JSNum.fin 76,
      (JSNum.fin 76).sub (JSNum.fin 80)) = _
    rw [hsub]
  · rw [hproj]
    show (sortDescBy (fun e : WeightEntry => e.timestamp)
      ([⟨.fin 80, t1, d1⟩, ⟨.fin 78, t2, d2⟩, ⟨.fin 76, t3, d3⟩] :
        List WeightEntry)).map (fun e => e.timestamp) = [t3, t2, t1]
    rw [sortDescBy_three (fun e : WeightEntry => e.timestamp) _ _ _ h12 h23]
    rfl

theorem claim_C7_scenario_witness :
    HealthApp.weightsProjection
        [⟨.fin 78, 2, "b"⟩, ⟨.fin 76, 3, "c"⟩, ⟨.fin 80, 1, "a"⟩] =
      [⟨.fin 80, 1, "a"⟩, ⟨.fin 78, 2, "b"⟩, ⟨.fin 76, 3, "c"⟩] ∧
    (HealthApp.historyTableOrder (HealthApp.weightsProjection
        [⟨.fin 78, 2, "b"⟩, ⟨.fin 76, 3, "c"⟩, ⟨.fin 80, 1, "a"⟩])).map
      (fun e => e.timestamp) = [3, 2, 1] := by
  have h := claim_C7_scenario 1 2 3 "a" "b" "c" (by omega) (by omega)
    [⟨.fin 78, 2, "b"⟩, ⟨.fin 76, 3, "c"⟩, ⟨.fin 80, 1, "a"⟩] (by decide)
  exact ⟨h.1, h.2.2.2⟩

/-- C8 (counterexample): part_000's subscription error handler only logs:
it leaves the previously materialized record set in place, refuting
"substitutes an empty materialized record set". -/
theorem claim_C8_counterexample :
    (PartZero.listenerStep ⟨[⟨.fin 80, 1, "d"⟩]⟩
        (.failure "permission-denied")).weightData = [⟨.fin 80, 1, "d"⟩] ∧
    ([(⟨.fin 80, 1, "d"⟩ : WeightEntry)]) ≠ [] := by
  exact ⟨rfl, by decide⟩

/-- C8 (amended): no listener error handler throws past the projection
boundary (each is a total state transition) and every path keeps
processing later snapshots identically after an error; but only
HealthTrackerApp's handler substitutes the empty set (it logs rather than
rendering the error), index.jsx's surfaces an inline error message while
leaving the previous materialized set unchanged, and part_000's only
logs, changing nothing. -/
theorem claim_C8_amended (s : HealthApp.ListenerState)
    (s0 : PartZero.ListenerState) (si : IndexApp.ListenerState)
    (m : String) (docs : List WeightEntry)
    (docsN : List NutritionRecord) :
    (HealthApp.listenerStep s (.failure m)).weightData = [] ∧
    HealthApp.listenerStep (HealthApp.listenerStep s (.failure m))
        (.snap docs) = HealthApp.listenerStep s (.snap docs) ∧
    PartZero.listenerStep s0 (.failure m) = s0 ∧
    PartZero.listenerStep (PartZero.listenerStep s0 (.failure m))
        (.snap docs) = PartZero.listenerStep s0 (.snap docs) ∧
    (IndexApp.listenerStep si (.failure m)).history = si.history ∧
    (IndexApp.listenerStep si (.failure m)).message =
      "Error al cargar historial: " ++ m ∧
    (IndexApp.listenerStep si (.failure m)).messageType = "error" ∧
    (IndexApp.listenerStep (IndexApp.listenerStep si (.failure m))
        (.snap docsN)).history =
      (IndexApp.listenerStep si (.snap docsN)).history := by
  exact ⟨rfl, rfl, rfl, rfl, rfl, rfl, rfl, rfl⟩

/-- C9 (counterexample): the recording check `isNaN(v) || v <= 0` lets
+Infinity through (parseFloat of the enterable string "1e999" overflows
to Infinity): the entry is written although its weight is not a positive
FINITE number, refuting the claimed invariant. -/
theorem claim_C9_counterexample :
    (HealthApp.handleRecord .inf 5 "d" []).1 = [⟨.inf, 5, "d"⟩] ∧
    JSNum.isPositiveFinite .inf = false := by
  exact ⟨rfl, rfl⟩

/-- C9 (amended): when the parsed value is NaN or ≤ 0 both recording
operations write nothing and report the inline message "Por favor,
ingresa un peso válido.", leaving the store unchanged; every entry that
IS written has a weight passing the code's positivity check — positive,
but not necessarily finite, since +Infinity also passes. -/
theorem claim_C9_amended (v : JSNum) (ts : Nat) (d : String)
    (store : List WeightEntry) :
    ((v.isNaN || v.leZero) = true →
      HealthApp.handleRecord v ts d store =
        (store, "Por favor, ingresa un peso válido.") ∧
      PartZero.handleSaveWeight false v ts d store =
        (store, "Por favor, ingresa un peso válido.")) ∧
    ((v.isNaN || v.leZero) = false →
      HealthApp.handleRecord v ts d store =
        (store ++ [⟨v, ts, d⟩], "Peso registrado con éxito.") ∧
      PartZero.handleSaveWeight false v ts d store =
        (store ++ [⟨v, ts, d⟩], "¡Peso guardado con éxito!") ∧
      v.jsPositive = true) := by
  constructor
  · intro h
    constructor
    · rw [HealthApp.handleRecord, if_pos h]
    · rw [PartZero.handleSaveWeight, if_neg (by decide), if_pos h]
  · intro h
    refine ⟨?_, ?_, (JSNum.jsPositive_iff_check v).mpr h⟩
    · rw [HealthApp.handleRecord, if_neg (by rw [h]; decide)]
    · rw [PartZero.handleSaveWeight, if_neg (by decide),
        if_neg (by rw [h]; decide)]

theorem claim_C9_amended_witness :
    HealthApp.handleRecord .nan 1 "d" [] =
      ([], "Por favor, ingresa un peso válido.") ∧
    HealthApp.handleRecord (.fin 2) 1 "d" [] =
      ([⟨.fin 2, 1, "d"⟩], "Peso registrado con éxito.") := by
  exact ⟨((claim_C9_amended .nan 1 "d" []).1 (by decide)).1,
    ((claim_C9_amended (.fin 2) 1 "d" []).2 (by decide)).1⟩

/-- C10: the multimodal request builders in HealthTrackerApp.jsx and
part_000 stamp the constant mimeType "image/png" on the inlineData part
whatever the uploaded file was (the file inputs also accept JPEG), while
index.jsx's runGeneration derives the mimeType from the data-URL prefix
via /data:(.*?);base64/, defaulting to "image/jpeg" when the match
fails. -/
theorem claim_C10_mimeType (userQuery img prompt m d : String)
    (hsemi : ∀ c ∈ m.toList, c ≠ ';')
    (hcomma : ∀ c ∈ m.toList, c ≠ ',') :
    mimeTypesOf (HealthApp.generateMultimodalContentParts userQuery img) =
      ["image/png"] ∧
    mimeTypesOf (PartZero.generateAIResponseParts prompt (some img)) =
      ["image/png"] ∧
    IndexApp.runGenerationMime ("data:" ++ m ++ ";base64," ++ d) = m ∧
    IndexApp.runGenerationMime "garbage" = "image/jpeg" := by
  exact ⟨rfl, rfl, runGenerationMime_dataUrl m d hsemi hcomma, rfl⟩

theorem claim_C10_mimeType_witness :
    mimeTypesOf (HealthApp.generateMultimodalContentParts "q" "IMG") =
      ["image/png"] ∧
    IndexApp.runGenerationMime
      ("data:" ++ "image/jpeg" ++ ";base64," ++ "AAAA") = "image/jpeg" := by
  have h := claim_C10_mimeType "q" "IMG" "p" "image/jpeg" "AAAA"
    (by decide) (by decide)
  exact ⟨h.1, h.2.2.1⟩
